import Mathlib

/-!
Verification of the kharidify storage layer (`server/storage.ts` and
`server/DatabaseStorage.ts`) against its natural-language specification.

The in-memory backend (`MemStorage`) keeps one insertion-ordered map per
entity kind (a JavaScript `Map`), plus one per-kind integer counter used to
mint ids.  We embed a JavaScript `Map<number, V>` as an association list
`List (Nat × V)`: `Map.set` replaces in place when the key is present and
appends otherwise (preserving JavaScript's insertion-order iteration),
`Map.delete` removes the entry, `Map.values()` is the list of second
components in list order.

The relational backend (`DatabaseStorage`) is embedded by giving each SQL
table as a list of rows and translating each Drizzle query to its SQL
meaning: `UPDATE ... SET` writes exactly the supplied columns,
`DELETE ... WHERE` filters rows out, and a `SELECT` applies `WHERE`, then
`ORDER BY`, then `OFFSET`/`LIMIT`.

Timestamps (`new Date()` / `defaultNow()`) are modelled as an abstract
clock value `now : Nat` passed to every operation that reads the clock.
JavaScript truthiness tests on options (`options?.limit`, `if (category)`)
are modelled explicitly: `0` and `""` count as falsy.
-/

/-! ## JavaScript `Map<number, V>` as an association list -/

def mapKeys (m : List (Nat × α)) : List Nat := m.map Prod.fst

def mapValues (m : List (Nat × α)) : List α := m.map Prod.snd

def mapGet : List (Nat × α) → Nat → Option α
  | [], _ => none
  | (k, v) :: rest, i => if k = i then some v else mapGet rest i

def mapSet : List (Nat × α) → Nat → α → List (Nat × α)
  | [], i, v => [(i, v)]
  | (k, w) :: rest, i, v =>
      if k = i then (i, v) :: rest else (k, w) :: mapSet rest i v

def mapDelete : List (Nat × α) → Nat → List (Nat × α)
  | [], _ => []
  | (k, w) :: rest, i => if k = i then rest else (k, w) :: mapDelete rest i

def mapHas (m : List (Nat × α)) (i : Nat) : Bool :=
  m.any (fun p => p.1 == i)

/-- JavaScript `x || d` on an optional number: `undefined` and `0` are
falsy, so both fall back to the default. -/
def jsOrNat (x : Option Nat) (d : Nat) : Nat :=
  match x with
  | some v => if v = 0 then d else v
  | none => d

/-- Stable insertion of an element into a list sorted by `le`. -/
def insertSorted (le : α → α → Bool) (a : α) : List α → List α
  | [] => [a]
  | b :: bs => if le a b then a :: b :: bs else b :: insertSorted le a bs

/-- Stable insertion sort, modelling the sorts issued by the storage layer
(`Array.prototype.sort` with a comparator, SQL `ORDER BY`). -/
def sortBy (le : α → α → Bool) : List α → List α
  | [] => []
  | a :: as => insertSorted le a (sortBy le as)

/-! ## Entity kinds (`shared/schema.ts` select types)

Columns that are nullable in the schema are `Option`s; `numeric` columns
are `Int`; timestamp columns are `Option Nat` (nullable in the schema,
always populated by the backends).  Insert payload types mark a field that
is both optional and nullable as `Option (Option _)`: the outer layer is
presence in the payload, the inner layer is SQL `NULL`. -/

structure User where
  id : Nat
  username : String
  email : String
  password : String
  firstName : Option String
  lastName : Option String
  phone : Option String
  createdAt : Option Nat
deriving Repr, DecidableEq

structure InsertUser where
  username : String
  email : String
  password : String
  firstName : Option (Option String) := none
  lastName : Option (Option String) := none
  phone : Option (Option String) := none
deriving Repr, DecidableEq

structure Product where
  id : Nat
  name : String
  description : String
  price : Int
  discountPrice : Option Int
  images : Option (List String)
  category : String
  inStock : Option Bool
  isFeatured : Option Bool
  isLimited : Option Bool
  limitedCount : Option Int
  sustainableMaterials : Option (List String)
  madeIn : Option String
  createdAt : Option Nat
deriving Repr, DecidableEq

structure InsertProduct where
  name : String
  description : String
  price : Int
  discountPrice : Option (Option Int) := none
  images : Option (Option (List String)) := none
  category : String
  inStock : Option (Option Bool) := none
  isFeatured : Option (Option Bool) := none
  isLimited : Option (Option Bool) := none
  limitedCount : Option (Option Int) := none
  sustainableMaterials : Option (Option (List String)) := none
  madeIn : Option (Option String) := none
deriving Repr, DecidableEq

/-- `Partial<InsertProduct>`: every field may be absent.  A present field
overrides the stored one on merge (object spread), an absent field leaves
it untouched. -/
structure ProductPatch where
  name : Option String := none
  description : Option String := none
  price : Option Int := none
  discountPrice : Option (Option Int) := none
  images : Option (Option (List String)) := none
  category : Option String := none
  inStock : Option (Option Bool) := none
  isFeatured : Option (Option Bool) := none
  isLimited : Option (Option Bool) := none
  limitedCount : Option (Option Int) := none
  sustainableMaterials : Option (Option (List String)) := none
  madeIn : Option (Option String) := none
deriving Repr, DecidableEq

structure Category where
  id : Nat
  name : String
  slug : String
deriving Repr, DecidableEq

structure InsertCategory where
  name : String
  slug : String
deriving Repr, DecidableEq

structure Article where
  id : Nat
  title : String
  slug : String
  content : String
  excerpt : Option String
  coverImage : Option String
  category : Option String
  createdAt : Option Nat
deriving Repr, DecidableEq

structure InsertArticle where
  title : String
  slug : String
  content : String
  excerpt : Option (Option String) := none
  coverImage : Option (Option String) := none
  category : Option (Option String) := none
deriving Repr, DecidableEq

/-- `jsonb` address payloads are opaque at the storage layer; we model the
serialized form as a `String`. -/
structure Order where
  id : Nat
  userId : Option Nat
  status : String
  total : Int
  shippingAddress : Option String
  billingAddress : Option String
  paymentMethod : Option String
  paymentStatus : Option String
  createdAt : Option Nat
deriving Repr, DecidableEq

structure InsertOrder where
  userId : Option (Option Nat) := none
  status : String
  total : Int
  shippingAddress : Option (Option String) := none
  billingAddress : Option (Option String) := none
  paymentMethod : Option (Option String) := none
  paymentStatus : Option (Option String) := none
deriving Repr, DecidableEq

structure OrderItem where
  id : Nat
  orderId : Nat
  productId : Nat
  quantity : Nat
  price : Int
deriving Repr, DecidableEq

structure InsertOrderItem where
  orderId : Nat
  productId : Nat
  quantity : Nat
  price : Int
deriving Repr, DecidableEq

structure Subscriber where
  id : Nat
  email : String
  createdAt : Option Nat
deriving Repr, DecidableEq

structure InsertSubscriber where
  email : String
deriving Repr, DecidableEq

structure Contact where
  id : Nat
  name : String
  email : String
  subject : Option String
  message : String
  createdAt : Option Nat
deriving Repr, DecidableEq

structure InsertContact where
  name : String
  email : String
  subject : Option (Option String) := none
  message : String
deriving Repr, DecidableEq

structure Settings where
  id : Nat
  key : String
  value : Option String
  category : String
  description : Option String
  createdAt : Option Nat
  updatedAt : Option Nat
deriving Repr, DecidableEq

/-- Insert payload for settings.  `category` falls back to `'general'` in
the in-memory backend (`insertSetting.category ?? 'general'`), so it is
optional here. -/
structure InsertSettings where
  key : String
  value : Option (Option String) := none
  category : Option String := none
  description : Option (Option String) := none
deriving Repr, DecidableEq

/-- `Partial<InsertSettings>`. -/
structure SettingsPatch where
  key : Option String := none
  value : Option (Option String) := none
  category : Option String := none
  description : Option (Option String) := none
deriving Repr, DecidableEq

/-- Options record of `getProducts` (all fields optional in the source). -/
structure ProductQueryOptions where
  limit : Option Nat := none
  offset : Option Nat := none
  category : Option String := none
  featured : Option Bool := none
deriving Repr, DecidableEq

/-- Options record of `getArticles`. -/
structure ArticleQueryOptions where
  limit : Option Nat := none
  offset : Option Nat := none
  category : Option String := none
deriving Repr, DecidableEq

/-! ## In-memory backend (`MemStorage`, server/storage.ts)

One insertion-ordered map and one id counter per entity kind.  The
constructor sets every map empty and every counter to 1 and then seeds
demonstration data by calling `createCategory` / `createProduct` /
`createArticle`; `MemStorage.init` below is the pre-seed state, so the
post-constructor state is reached from it by a sequence of interface
operations. -/

structure MemStorage where
  users : List (Nat × User)
  products : List (Nat × Product)
  categories : List (Nat × Category)
  articles : List (Nat × Article)
  orders : List (Nat × Order)
  orderItems : List (Nat × OrderItem)
  subscribers : List (Nat × Subscriber)
  contacts : List (Nat × Contact)
  settings : List (Nat × Settings)
  userId : Nat
  productId : Nat
  categoryId : Nat
  articleId : Nat
  orderId : Nat
  orderItemId : Nat
  subscriberId : Nat
  contactId : Nat
  settingId : Nat
deriving Repr, DecidableEq

namespace MemStorage

/-- Constructor state before `initializeData` runs: empty maps, all
counters 1. -/
def init : MemStorage :=
  { users := [], products := [], categories := [], articles := []
    orders := [], orderItems := [], subscribers := [], contacts := []
    settings := []
    userId := 1, productId := 1, categoryId := 1, articleId := 1
    orderId := 1, orderItemId := 1, subscriberId := 1, contactId := 1
    settingId := 1 }

-- Users

def getUser (s : MemStorage) (id : Nat) : Option User :=
  mapGet s.users id

def getUserByUsername (s : MemStorage) (username : String) : Option User :=
  (mapValues s.users).find? (fun u => u.username == username)

def getUserByEmail (s : MemStorage) (email : String) : Option User :=
  (mapValues s.users).find? (fun u => u.email == email)

def createUser (s : MemStorage) (insertUser : InsertUser) (now : Nat) :
    User × MemStorage :=
  let id := s.userId
  let user : User :=
    { id := id
      username := insertUser.username
      email := insertUser.email
      password := insertUser.password
      createdAt := some now
      firstName := insertUser.firstName.join
      lastName := insertUser.lastName.join
      phone := insertUser.phone.join }
  (user, { s with users := mapSet s.users id user, userId := s.userId + 1 })

-- Products

def getProduct (s : MemStorage) (id : Nat) : Option Product :=
  mapGet s.products id

/-- The filtering stage of `getProducts`: the category filter runs only
when the supplied category is truthy (present and non-empty), the featured
filter whenever the option is present; `===` against a possibly-NULL
stored flag never matches NULL. -/
def filteredProducts (s : MemStorage) (category : Option String)
    (featured : Option Bool) : List Product :=
  let ps := mapValues s.products
  let ps :=
    match category with
    | some c => if c = "" then ps else ps.filter (fun p => p.category == c)
    | none => ps
  match featured with
  | some f => ps.filter (fun p => p.isFeatured == some f)
  | none => ps

def getProducts (s : MemStorage) (options : ProductQueryOptions) :
    List Product :=
  let ps := filteredProducts s options.category options.featured
  let offset := jsOrNat options.offset 0
  let limit := jsOrNat options.limit ps.length
  (ps.drop offset).take limit

def createProduct (s : MemStorage) (insertProduct : InsertProduct)
    (now : Nat) : Product × MemStorage :=
  let id := s.productId
  let product : Product :=
    { id := id
      name := insertProduct.name
      description := insertProduct.description
      price := insertProduct.price
      category := insertProduct.category
      createdAt := some now
      discountPrice := insertProduct.discountPrice.join
      images := insertProduct.images.join
      inStock := some (insertProduct.inStock.join.getD true)
      isFeatured := some (insertProduct.isFeatured.join.getD false)
      isLimited := some (insertProduct.isLimited.join.getD false)
      limitedCount := insertProduct.limitedCount.join
      sustainableMaterials := insertProduct.sustainableMaterials.join
      madeIn := insertProduct.madeIn.join }
  (product,
   { s with products := mapSet s.products id product
            productId := s.productId + 1 })

/-- `{ ...existingProduct, ...product }`: each payload field that is
present (even as NULL) overrides the stored one; the payload type has no
`id`/`createdAt` field, so those are always kept. -/
def mergeProduct (existing : Product) (patch : ProductPatch) : Product :=
  { existing with
    name := patch.name.getD existing.name
    description := patch.description.getD existing.description
    price := patch.price.getD existing.price
    category := patch.category.getD existing.category
    discountPrice := patch.discountPrice.getD existing.discountPrice
    images := patch.images.getD existing.images
    inStock := patch.inStock.getD existing.inStock
    isFeatured := patch.isFeatured.getD existing.isFeatured
    isLimited := patch.isLimited.getD existing.isLimited
    limitedCount := patch.limitedCount.getD existing.limitedCount
    sustainableMaterials :=
      patch.sustainableMaterials.getD existing.sustainableMaterials
    madeIn := patch.madeIn.getD existing.madeIn }

def updateProduct (s : MemStorage) (id : Nat) (patch : ProductPatch) :
    Option Product × MemStorage :=
  match mapGet s.products id with
  | none => (none, s)
  | some existing =>
      let updated := mergeProduct existing patch
      (some updated, { s with products := mapSet s.products id updated })

def deleteProduct (s : MemStorage) (id : Nat) : Bool × MemStorage :=
  if mapHas s.products id then
    (true, { s with products := mapDelete s.products id })
  else
    (false, s)

-- Categories

def getCategories (s : MemStorage) : List Category :=
  mapValues s.categories

def getCategoryBySlug (s : MemStorage) (slug : String) : Option Category :=
  (mapValues s.categories).find? (fun c => c.slug == slug)

def createCategory (s : MemStorage) (insertCategory : InsertCategory) :
    Category × MemStorage :=
  let id := s.categoryId
  let category : Category :=
    { id := id, name := insertCategory.name, slug := insertCategory.slug }
  (category,
   { s with categories := mapSet s.categories id category
            categoryId := s.categoryId + 1 })

-- Articles

def getArticle (s : MemStorage) (id : Nat) : Option Article :=
  mapGet s.articles id

def getArticleBySlug (s : MemStorage) (slug : String) : Option Article :=
  (mapValues s.articles).find? (fun a => a.slug == slug)

/-- The filtering stage of `getArticles`. -/
def filteredArticles (s : MemStorage) (category : Option String) :
    List Article :=
  let as := mapValues s.articles
  match category with
  | some c => if c = "" then as else as.filter (fun a => a.category == some c)
  | none => as

def getArticles (s : MemStorage) (options : ArticleQueryOptions) :
    List Article :=
  let as := filteredArticles s options.category
  let offset := jsOrNat options.offset 0
  let limit := jsOrNat options.limit as.length
  (as.drop offset).take limit

def createArticle (s : MemStorage) (insertArticle : InsertArticle)
    (now : Nat) : Article × MemStorage :=
  let id := s.articleId
  let article : Article :=
    { id := id
      title := insertArticle.title
      slug := insertArticle.slug
      content := insertArticle.content
      createdAt := some now
      category := insertArticle.category.join
      excerpt := insertArticle.excerpt.join
      coverImage := insertArticle.coverImage.join }
  (article,
   { s with articles := mapSet s.articles id article
            articleId := s.articleId + 1 })

-- Orders

def getOrder (s : MemStorage) (id : Nat) : Option Order :=
  mapGet s.orders id

def getUserOrders (s : MemStorage) (userId : Nat) : List Order :=
  (mapValues s.orders).filter (fun o => o.userId == some userId)

def createOrder (s : MemStorage) (insertOrder : InsertOrder) (now : Nat) :
    Order × MemStorage :=
  let id := s.orderId
  let order : Order :=
    { id := id
      status := insertOrder.status
      total := insertOrder.total
      createdAt := some now
      userId := insertOrder.userId.join
      shippingAddress := insertOrder.shippingAddress.join
      billingAddress := insertOrder.billingAddress.join
      paymentMethod := insertOrder.paymentMethod.join
      paymentStatus := insertOrder.paymentStatus.join }
  (order,
   { s with orders := mapSet s.orders id order, orderId := s.orderId + 1 })

def updateOrderStatus (s : MemStorage) (id : Nat) (status : String) :
    Option Order × MemStorage :=
  match mapGet s.orders id with
  | none => (none, s)
  | some order =>
      let updated := { order with status := status }
      (some updated, { s with orders := mapSet s.orders id updated })

-- Order items

def getOrderItems (s : MemStorage) (orderId : Nat) : List OrderItem :=
  (mapValues s.orderItems).filter (fun it => it.orderId == orderId)

def createOrderItem (s : MemStorage) (insertOrderItem : InsertOrderItem) :
    OrderItem × MemStorage :=
  let id := s.orderItemId
  let orderItem : OrderItem :=
    { id := id
      orderId := insertOrderItem.orderId
      productId := insertOrderItem.productId
      quantity := insertOrderItem.quantity
      price := insertOrderItem.price }
  (orderItem,
   { s with orderItems := mapSet s.orderItems id orderItem
            orderItemId := s.orderItemId + 1 })

-- Subscribers

def getSubscribers (s : MemStorage) : List Subscriber :=
  mapValues s.subscribers

def getSubscriberByEmail (s : MemStorage) (email : String) :
    Option Subscriber :=
  (mapValues s.subscribers).find? (fun sub => sub.email == email)

def createSubscriber (s : MemStorage) (insertSubscriber : InsertSubscriber)
    (now : Nat) : Subscriber × MemStorage :=
  let id := s.subscriberId
  let subscriber : Subscriber :=
    { id := id, email := insertSubscriber.email, createdAt := some now }
  (subscriber,
   { s with subscribers := mapSet s.subscribers id subscriber
            subscriberId := s.subscriberId + 1 })

-- Contacts

def createContact (s : MemStorage) (insertContact : InsertContact)
    (now : Nat) : Contact × MemStorage :=
  let id := s.contactId
  let contact : Contact :=
    { id := id
      name := insertContact.name
      email := insertContact.email
      message := insertContact.message
      createdAt := some now
      subject := insertContact.subject.join }
  (contact,
   { s with contacts := mapSet s.contacts id contact
            contactId := s.contactId + 1 })

-- Settings

def getSettings (s : MemStorage) (category : Option String) :
    List Settings :=
  let ss := mapValues s.settings
  let ss :=
    match category with
    | some c => if c = "" then ss else ss.filter (fun st => st.category == c)
    | none => ss
  sortBy (fun a b => decide (a.key ≤ b.key)) ss

def getSettingByKey (s : MemStorage) (key : String) : Option Settings :=
  (mapValues s.settings).find? (fun st => st.key == key)

def createSetting (s : MemStorage) (insertSetting : InsertSettings)
    (now : Nat) : Settings × MemStorage :=
  let id := s.settingId
  let setting : Settings :=
    { id := id
      key := insertSetting.key
      createdAt := some now
      updatedAt := some now
      value := insertSetting.value.join
      category := insertSetting.category.getD "general"
      description := insertSetting.description.join }
  (setting,
   { s with settings := mapSet s.settings id setting
            settingId := s.settingId + 1 })

/-- `{ ...setting, ...settingData }` for a settings patch. -/
def mergeSettings (existing : Settings) (patch : SettingsPatch) : Settings :=
  { existing with
    key := patch.key.getD existing.key
    value := patch.value.getD existing.value
    category := patch.category.getD existing.category
    description := patch.description.getD existing.description }

def updateSetting (s : MemStorage) (id : Nat) (patch : SettingsPatch)
    (now : Nat) : Option Settings × MemStorage :=
  match mapGet s.settings id with
  | none => (none, s)
  | some setting =>
      let updated := { mergeSettings setting patch with updatedAt := some now }
      (some updated, { s with settings := mapSet s.settings id updated })

def deleteSetting (s : MemStorage) (id : Nat) : Bool × MemStorage :=
  if mapHas s.settings id then
    (true, { s with settings := mapDelete s.settings id })
  else
    (false, s)

end MemStorage

/-! ## Relational backend (`DatabaseStorage`, server/DatabaseStorage.ts)

Each table is a list of rows; only the tables and methods the claims are
about are modelled.  A Drizzle `select` chain is compiled to SQL in which
`WHERE` applies before `ORDER BY`, which applies before `OFFSET`/`LIMIT`,
regardless of builder call order; `.limit(n)` / `.offset(n)` are only
attached when the option is truthy (`if (options?.limit)`). -/

structure Database where
  products : List Product
  articles : List Article
  settings : List Settings
deriving Repr, DecidableEq

namespace DatabaseStorage

def getProducts (d : Database) (options : ProductQueryOptions) :
    List Product :=
  let rows := d.products
  let rows :=
    match options.category with
    | some c => if c = "" then rows else rows.filter (fun p => p.category == c)
    | none => rows
  let rows :=
    match options.featured with
    | some f => rows.filter (fun p => p.isFeatured == some f)
    | none => rows
  let rows :=
    sortBy (fun a b => decide (b.createdAt.getD 0 ≤ a.createdAt.getD 0)) rows
  let rows :=
    match options.offset with
    | some v => if v = 0 then rows else rows.drop v
    | none => rows
  match options.limit with
  | some v => if v = 0 then rows else rows.take v
  | none => rows

def deleteProduct (d : Database) (id : Nat) : Bool × Database :=
  (true, { d with products := d.products.filter (fun p => p.id != id) })

def getArticles (d : Database) (options : ArticleQueryOptions) :
    List Article :=
  let rows := d.articles
  let rows :=
    match options.category with
    | some c =>
        if c = "" then rows else rows.filter (fun a => a.category == some c)
    | none => rows
  let rows :=
    sortBy (fun a b => decide (b.createdAt.getD 0 ≤ a.createdAt.getD 0)) rows
  let rows :=
    match options.offset with
    | some v => if v = 0 then rows else rows.drop v
    | none => rows
  match options.limit with
  | some v => if v = 0 then rows else rows.take v
  | none => rows

def getSettings (d : Database) (category : Option String) : List Settings :=
  let rows := d.settings
  let rows :=
    match category with
    | some c =>
        if c = "" then rows else rows.filter (fun st => st.category == c)
    | none => rows
  sortBy (fun a b => decide (a.key ≤ b.key)) rows

/-- `UPDATE settings SET <payload columns> WHERE id = ?`: exactly the
columns present in the payload are written; `createdAt`/`updatedAt` are not
payload columns and `defaultNow()` is an insert-time default only, so both
keep their stored values. -/
def setSettingColumns (patch : SettingsPatch) (row : Settings) : Settings :=
  { row with
    key := patch.key.getD row.key
    value := patch.value.getD row.value
    category := patch.category.getD row.category
    description := patch.description.getD row.description }

def updateSetting (d : Database) (id : Nat) (patch : SettingsPatch) :
    Option Settings × Database :=
  let updatedRows :=
    (d.settings.filter (fun r => r.id == id)).map (setSettingColumns patch)
  (updatedRows.head?,
   { d with settings :=
      d.settings.map (fun r => if r.id == id then setSettingColumns patch r else r) })

def deleteSetting (d : Database) (id : Nat) : Bool × Database :=
  (true, { d with settings := d.settings.filter (fun st => st.id != id) })

end DatabaseStorage

/-! ## Lemmas about the map embedding -/

theorem mapGet_mapSet_self (m : List (Nat × α)) (k : Nat) (v : α) :
    mapGet (mapSet m k v) k = some v := by
  induction m with
  | nil => simp [mapSet, mapGet]
  | cons p rest ih =>
      obtain ⟨a, w⟩ := p
      by_cases ha : a = k
      · subst ha
        simp [mapSet, mapGet]
      · simp [mapSet, ha, mapGet, ih]

theorem mapGet_mapSet_ne (m : List (Nat × α)) (k j : Nat) (v : α)
    (h : j ≠ k) : mapGet (mapSet m k v) j = mapGet m j := by
  have hk : k ≠ j := Ne.symm h
  induction m with
  | nil => simp [mapSet, mapGet, hk]
  | cons p rest ih =>
      obtain ⟨a, w⟩ := p
      by_cases ha : a = k
      · subst ha
        simp [mapSet, mapGet, hk]
      · by_cases hj : a = j
        · subst hj
          simp [mapSet, ha, mapGet]
        · simp [mapSet, ha, mapGet, hj, ih]

theorem mapGet_mapDelete_ne (m : List (Nat × α)) (k j : Nat) (h : j ≠ k) :
    mapGet (mapDelete m k) j = mapGet m j := by
  have hk : k ≠ j := Ne.symm h
  induction m with
  | nil => simp [mapDelete]
  | cons p rest ih =>
      obtain ⟨a, w⟩ := p
      by_cases ha : a = k
      · subst ha
        simp [mapDelete, mapGet, hk]
      · simp [mapDelete, ha, mapGet, ih]

theorem mapGet_eq_none_of_not_mem (m : List (Nat × α)) (k : Nat)
    (h : k ∉ mapKeys m) : mapGet m k = none := by
  induction m with
  | nil => rfl
  | cons p rest ih =>
      obtain ⟨a, w⟩ := p
      simp only [mapKeys, List.map_cons, List.mem_cons, not_or] at h
      simp [mapGet, Ne.symm h.1, ih h.2]

theorem mapGet_mapDelete_self (m : List (Nat × α)) (k : Nat)
    (h : (mapKeys m).Nodup) : mapGet (mapDelete m k) k = none := by
  induction m with
  | nil => rfl
  | cons p rest ih =>
      obtain ⟨a, w⟩ := p
      simp only [mapKeys, List.map_cons, List.nodup_cons] at h
      by_cases ha : a = k
      · subst ha
        simp only [mapDelete, if_pos trivial]
        exact mapGet_eq_none_of_not_mem rest a h.1
      · simp only [mapDelete, if_neg ha, mapGet, if_neg ha]
        exact ih h.2

theorem mem_of_mapGet_eq_some (m : List (Nat × α)) (k : Nat) (v : α)
    (h : mapGet m k = some v) : (k, v) ∈ m := by
  induction m with
  | nil => simp [mapGet] at h
  | cons p rest ih =>
      obtain ⟨a, w⟩ := p
      by_cases ha : a = k
      · subst ha
        simp [mapGet] at h
        subst h
        exact List.mem_cons_self _ _
      · simp only [mapGet, if_neg ha] at h
        exact List.mem_cons_of_mem _ (ih h)

theorem mem_keys_of_mapGet_eq_some (m : List (Nat × α)) (k : Nat) (v : α)
    (h : mapGet m k = some v) : k ∈ mapKeys m :=
  List.mem_map_of_mem Prod.fst (mem_of_mapGet_eq_some m k v h)

theorem mapGet_isSome_of_mem_keys (m : List (Nat × α)) (k : Nat)
    (h : k ∈ mapKeys m) : (mapGet m k).isSome := by
  induction m with
  | nil => simp [mapKeys] at h
  | cons p rest ih =>
      obtain ⟨a, w⟩ := p
      by_cases ha : a = k
      · subst ha
        simp [mapGet]
      · simp only [mapKeys, List.map_cons, List.mem_cons] at h
        rcases h with h1 | h1
        · exact absurd h1.symm ha
        · simp only [mapGet, if_neg ha]
          exact ih h1

theorem mapKeys_mapSet_of_not_mem (m : List (Nat × α)) (k : Nat) (v : α)
    (h : k ∉ mapKeys m) : mapKeys (mapSet m k v) = mapKeys m ++ [k] := by
  induction m with
  | nil => simp [mapSet, mapKeys]
  | cons p rest ih =>
      obtain ⟨a, w⟩ := p
      simp only [mapKeys, List.map_cons, List.mem_cons, not_or] at h
      have ha : a ≠ k := Ne.symm h.1
      simp only [mapSet, if_neg ha, mapKeys, List.map_cons, List.cons_append]
      have hrest := ih h.2
      simp only [mapKeys] at hrest
      rw [hrest]

theorem mapKeys_mapSet_of_mem (m : List (Nat × α)) (k : Nat) (v : α)
    (h : k ∈ mapKeys m) : mapKeys (mapSet m k v) = mapKeys m := by
  induction m with
  | nil => simp [mapKeys] at h
  | cons p rest ih =>
      obtain ⟨a, w⟩ := p
      by_cases ha : a = k
      · subst ha
        simp [mapSet, mapKeys]
      · have hmem : k ∈ mapKeys rest := by
          simp only [mapKeys, List.map_cons, List.mem_cons] at h
          rcases h with h1 | h1
          · exact absurd h1.symm ha
          · exact h1
        simp only [mapSet, if_neg ha, mapKeys, List.map_cons]
        have hrest := ih hmem
        simp only [mapKeys] at hrest
        rw [hrest]

theorem mem_mapSet (m : List (Nat × α)) (k : Nat) (v : α) (p : Nat × α)
    (h : p ∈ mapSet m k v) : p ∈ m ∨ p = (k, v) := by
  induction m with
  | nil =>
      simp only [mapSet, List.mem_singleton] at h
      exact Or.inr h
  | cons q rest ih =>
      obtain ⟨a, w⟩ := q
      by_cases ha : a = k
      · subst ha
        simp only [mapSet, if_pos trivial, List.mem_cons] at h
        rcases h with h1 | h1
        · exact Or.inr h1
        · exact Or.inl (List.mem_cons_of_mem _ h1)
      · simp only [mapSet, if_neg ha, List.mem_cons] at h
        rcases h with h1 | h1
        · exact Or.inl (by simp [h1])
        · rcases ih h1 with h2 | h2
          · exact Or.inl (List.mem_cons_of_mem _ h2)
          · exact Or.inr h2

theorem mem_mapDelete (m : List (Nat × α)) (k : Nat) (p : Nat × α)
    (h : p ∈ mapDelete m k) : p ∈ m := by
  induction m with
  | nil => simp [mapDelete] at h
  | cons q rest ih =>
      obtain ⟨a, w⟩ := q
      by_cases ha : a = k
      · subst ha
        simp only [mapDelete, if_pos trivial] at h
        exact List.mem_cons_of_mem _ h
      · simp only [mapDelete, if_neg ha, List.mem_cons] at h
        rcases h with h1 | h1
        · exact (by simp [h1])
        · exact List.mem_cons_of_mem _ (ih h1)

theorem mapKeys_mapDelete_sublist (m : List (Nat × α)) (k : Nat) :
    List.Sublist (mapKeys (mapDelete m k)) (mapKeys m) := by
  induction m with
  | nil => simp [mapDelete]
  | cons q rest ih =>
      obtain ⟨a, w⟩ := q
      by_cases ha : a = k
      · subst ha
        simp only [mapDelete, if_pos trivial, mapKeys, List.map_cons]
        exact List.sublist_cons_self _ _
      · simp only [mapDelete, if_neg ha, mapKeys, List.map_cons]
        exact List.Sublist.cons₂ _ ih

theorem mapHas_iff_mem_keys (m : List (Nat × α)) (k : Nat) :
    mapHas m k = true ↔ k ∈ mapKeys m := by
  induction m with
  | nil => simp [mapHas, mapKeys]
  | cons q rest ih =>
      obtain ⟨a, w⟩ := q
      simp only [mapHas, List.any_cons, Bool.or_eq_true, beq_iff_eq,
        mapKeys, List.map_cons, List.mem_cons]
      simp only [mapHas] at ih
      rw [ih]
      constructor
      · rintro (h1 | h1)
        · exact Or.inl h1.symm
        · exact Or.inr h1
      · rintro (h1 | h1)
        · exact Or.inl h1.symm
        · exact Or.inr h1

theorem mapHas_eq_isSome (m : List (Nat × α)) (k : Nat) :
    mapHas m k = (mapGet m k).isSome := by
  by_cases hk : k ∈ mapKeys m
  · rw [(mapHas_iff_mem_keys m k).mpr hk, mapGet_isSome_of_mem_keys m k hk]
  · have h1 : mapHas m k = false := by
      cases hh : mapHas m k
      · rfl
      · exact absurd ((mapHas_iff_mem_keys m k).mp hh) hk
    rw [h1, mapGet_eq_none_of_not_mem m k hk]
    rfl

theorem find?_eq_head?_filter (p : α → Bool) (l : List α) :
    l.find? p = (l.filter p).head? := by
  induction l with
  | nil => rfl
  | cons a t ih =>
      cases hpa : p a
      · rw [List.find?_cons_of_neg _ (by simp [hpa]),
          List.filter_cons_of_neg (by simp [hpa]), ih]
      · rw [List.find?_cons_of_pos _ hpa, List.filter_cons_of_pos hpa,
          List.head?_cons]

/-! ## Reachable-state invariant of the in-memory backend -/

/-- Invariant of one entity kind's map and counter: the counter strictly
dominates every key in the map, the keys are pairwise distinct (a
JavaScript `Map` property), and every stored entity's `id` field equals
its key. -/
def MapInv (m : List (Nat × α)) (ctr : Nat) (idOf : α → Nat) : Prop :=
  (∀ k ∈ mapKeys m, k < ctr) ∧ (mapKeys m).Nodup ∧ ∀ p ∈ m, idOf p.2 = p.1

theorem MapInv.not_mem {α : Type} {m : List (Nat × α)} {ctr : Nat}
    {idOf : α → Nat} (h : MapInv m ctr idOf) : ctr ∉ mapKeys m :=
  fun hmem => absurd (h.1 ctr hmem) (lt_irrefl ctr)

theorem MapInv.set_fresh {α : Type} {m : List (Nat × α)} {ctr : Nat}
    {idOf : α → Nat} (h : MapInv m ctr idOf) (v : α)
    (hv : idOf v = ctr) : MapInv (mapSet m ctr v) (ctr + 1) idOf := by
  have hfresh := h.not_mem
  have hkeys := mapKeys_mapSet_of_not_mem m ctr v hfresh
  refine ⟨?_, ?_, ?_⟩
  · intro k hk
    rw [hkeys, List.mem_append, List.mem_singleton] at hk
    rcases hk with hk | hk
    · exact Nat.lt_succ_of_lt (h.1 k hk)
    · exact hk ▸ Nat.lt_succ_self ctr
  · rw [hkeys]
    exact List.Nodup.append h.2.1 (List.nodup_singleton ctr)
      (by simpa [List.disjoint_singleton] using hfresh)
  · intro p hp
    rcases mem_mapSet m ctr v p hp with hp1 | hp1
    · exact h.2.2 p hp1
    · rw [hp1]
      exact hv

theorem MapInv.set_existing {α : Type} {m : List (Nat × α)} {ctr : Nat}
    {idOf : α → Nat} (h : MapInv m ctr idOf) (k : Nat) (v : α)
    (hk : k ∈ mapKeys m) (hv : idOf v = k) :
    MapInv (mapSet m k v) ctr idOf := by
  have hkeys := mapKeys_mapSet_of_mem m k v hk
  refine ⟨?_, ?_, ?_⟩
  · intro j hj
    exact h.1 j (hkeys ▸ hj)
  · rw [hkeys]
    exact h.2.1
  · intro p hp
    rcases mem_mapSet m k v p hp with hp1 | hp1
    · exact h.2.2 p hp1
    · rw [hp1]
      exact hv

theorem MapInv.delete {α : Type} {m : List (Nat × α)} {ctr : Nat}
    {idOf : α → Nat} (h : MapInv m ctr idOf) (k : Nat) :
    MapInv (mapDelete m k) ctr idOf := by
  have hsub := mapKeys_mapDelete_sublist m k
  exact ⟨fun j hj => h.1 j (hsub.mem hj), h.2.1.sublist hsub,
    fun p hp => h.2.2 p (mem_mapDelete m k p hp)⟩

namespace MemStorage

/-- The full state invariant: every entity kind's map/counter pair
satisfies `MapInv`. -/
def Inv (s : MemStorage) : Prop :=
  MapInv s.users s.userId User.id ∧
  MapInv s.products s.productId Product.id ∧
  MapInv s.categories s.categoryId Category.id ∧
  MapInv s.articles s.articleId Article.id ∧
  MapInv s.orders s.orderId Order.id ∧
  MapInv s.orderItems s.orderItemId OrderItem.id ∧
  MapInv s.subscribers s.subscriberId Subscriber.id ∧
  MapInv s.contacts s.contactId Contact.id ∧
  MapInv s.settings s.settingId Settings.id

/-- One state-mutating interface operation, with arbitrary arguments.  The
`get*` operations never change the state, so a sequence of interface calls
changes the state exactly through these steps. -/
inductive Step : MemStorage → MemStorage → Prop where
  | createUser (s : MemStorage) (u : InsertUser) (now : Nat) :
      Step s (s.createUser u now).2
  | createProduct (s : MemStorage) (p : InsertProduct) (now : Nat) :
      Step s (s.createProduct p now).2
  | updateProduct (s : MemStorage) (id : Nat) (p : ProductPatch) :
      Step s (s.updateProduct id p).2
  | deleteProduct (s : MemStorage) (id : Nat) :
      Step s (s.deleteProduct id).2
  | createCategory (s : MemStorage) (c : InsertCategory) :
      Step s (s.createCategory c).2
  | createArticle (s : MemStorage) (a : InsertArticle) (now : Nat) :
      Step s (s.createArticle a now).2
  | createOrder (s : MemStorage) (o : InsertOrder) (now : Nat) :
      Step s (s.createOrder o now).2
  | updateOrderStatus (s : MemStorage) (id : Nat) (status : String) :
      Step s (s.updateOrderStatus id status).2
  | createOrderItem (s : MemStorage) (it : InsertOrderItem) :
      Step s (s.createOrderItem it).2
  | createSubscriber (s : MemStorage) (sub : InsertSubscriber) (now : Nat) :
      Step s (s.createSubscriber sub now).2
  | createContact (s : MemStorage) (c : InsertContact) (now : Nat) :
      Step s (s.createContact c now).2
  | createSetting (s : MemStorage) (st : InsertSettings) (now : Nat) :
      Step s (s.createSetting st now).2
  | updateSetting (s : MemStorage) (id : Nat) (p : SettingsPatch) (now : Nat) :
      Step s (s.updateSetting id p now).2
  | deleteSetting (s : MemStorage) (id : Nat) :
      Step s (s.deleteSetting id).2

/-- States reachable from the pre-seed constructor state by interface
operations.  The constructor's seeding is itself a sequence of
`createCategory`/`createProduct`/`createArticle` steps, so every state of
the running program is reachable in this sense. -/
inductive Reachable : MemStorage → Prop where
  | init : Reachable MemStorage.init
  | step {s s' : MemStorage} : Reachable s → Step s s' → Reachable s'

theorem init_inv : Inv MemStorage.init := by
  refine ⟨?_, ?_, ?_, ?_, ?_, ?_, ?_, ?_, ?_⟩ <;>
    exact ⟨by simp [init, mapKeys], by simp [init, mapKeys],
      by simp [init]⟩

theorem step_inv {s s' : MemStorage} (h : Inv s) (hs : Step s s') :
    Inv s' := by
  obtain ⟨hU, hP, hC, hA, hO, hOI, hSub, hCt, hSe⟩ := h
  cases hs with
  | createUser u now =>
      exact ⟨hU.set_fresh _ rfl, hP, hC, hA, hO, hOI, hSub, hCt, hSe⟩
  | createProduct p now =>
      exact ⟨hU, hP.set_fresh _ rfl, hC, hA, hO, hOI, hSub, hCt, hSe⟩
  | updateProduct id p =>
      cases hg : mapGet s.products id with
      | none =>
          simp only [updateProduct, hg]
          exact ⟨hU, hP, hC, hA, hO, hOI, hSub, hCt, hSe⟩
      | some existing =>
          have hid : existing.id = id :=
            hP.2.2 (id, existing) (mem_of_mapGet_eq_some _ _ _ hg)
          have hmem : id ∈ mapKeys s.products :=
            mem_keys_of_mapGet_eq_some _ _ _ hg
          simp only [updateProduct, hg]
          refine ⟨hU, hP.set_existing id _ hmem ?_, hC, hA, hO, hOI,
            hSub, hCt, hSe⟩
          simpa [mergeProduct] using hid
  | deleteProduct id =>
      by_cases hh : mapHas s.products id
      · simp only [deleteProduct, hh, if_true]
        exact ⟨hU, hP.delete id, hC, hA, hO, hOI, hSub, hCt, hSe⟩
      · simp only [deleteProduct, hh]
        simp only [Bool.false_eq_true, if_false]
        exact ⟨hU, hP, hC, hA, hO, hOI, hSub, hCt, hSe⟩
  | createCategory c =>
      exact ⟨hU, hP, hC.set_fresh _ rfl, hA, hO, hOI, hSub, hCt, hSe⟩
  | createArticle a now =>
      exact ⟨hU, hP, hC, hA.set_fresh _ rfl, hO, hOI, hSub, hCt, hSe⟩
  | createOrder o now =>
      exact ⟨hU, hP, hC, hA, hO.set_fresh _ rfl, hOI, hSub, hCt, hSe⟩
  | updateOrderStatus id status =>
      cases hg : mapGet s.orders id with
      | none =>
          simp only [updateOrderStatus, hg]
          exact ⟨hU, hP, hC, hA, hO, hOI, hSub, hCt, hSe⟩
      | some order =>
          have hid : order.id = id :=
            hO.2.2 (id, order) (mem_of_mapGet_eq_some _ _ _ hg)
          have hmem : id ∈ mapKeys s.orders :=
            mem_keys_of_mapGet_eq_some _ _ _ hg
          simp only [updateOrderStatus, hg]
          exact ⟨hU, hP, hC, hA, hO.set_existing id _ hmem hid, hOI,
            hSub, hCt, hSe⟩
  | createOrderItem it =>
      exact ⟨hU, hP, hC, hA, hO, hOI.set_fresh _ rfl, hSub, hCt, hSe⟩
  | createSubscriber sub now =>
      exact ⟨hU, hP, hC, hA, hO, hOI, hSub.set_fresh _ rfl, hCt, hSe⟩
  | createContact c now =>
      exact ⟨hU, hP, hC, hA, hO, hOI, hSub, hCt.set_fresh _ rfl, hSe⟩
  | createSetting st now =>
      exact ⟨hU, hP, hC, hA, hO, hOI, hSub, hCt, hSe.set_fresh _ rfl⟩
  | updateSetting id p now =>
      cases hg : mapGet s.settings id with
      | none =>
          simp only [updateSetting, hg]
          exact ⟨hU, hP, hC, hA, hO, hOI, hSub, hCt, hSe⟩
      | some setting =>
          have hid : setting.id = id :=
            hSe.2.2 (id, setting) (mem_of_mapGet_eq_some _ _ _ hg)
          have hmem : id ∈ mapKeys s.settings :=
            mem_keys_of_mapGet_eq_some _ _ _ hg
          simp only [updateSetting, hg]
          refine ⟨hU, hP, hC, hA, hO, hOI, hSub, hCt,
            hSe.set_existing id _ hmem ?_⟩
          simpa [mergeSettings] using hid
  | deleteSetting id =>
      by_cases hh : mapHas s.settings id
      · simp only [deleteSetting, hh, if_true]
        exact ⟨hU, hP, hC, hA, hO, hOI, hSub, hCt, hSe.delete id⟩
      · simp only [deleteSetting, hh]
        simp only [Bool.false_eq_true, if_false]
        exact ⟨hU, hP, hC, hA, hO, hOI, hSub, hCt, hSe⟩

theorem reachable_inv {s : MemStorage} (h : Reachable s) : Inv s := by
  induction h with
  | init => exact init_inv
  | step _ hs ih => exact step_inv ih hs

end MemStorage

/-! ## Concrete sample data (used by witnesses and counterexamples) -/

def sampleProduct (i : Nat) : Product :=
  { id := i, name := "p", description := "d", price := 10
    discountPrice := none, images := none, category := "c"
    inStock := some true, isFeatured := some false, isLimited := some false
    limitedCount := none, sustainableMaterials := none, madeIn := none
    createdAt := some i }

/-- A five-product in-memory state (ids 1..5 in insertion order). -/
def s5 : MemStorage :=
  { MemStorage.init with
    products := [(1, sampleProduct 1), (2, sampleProduct 2),
      (3, sampleProduct 3), (4, sampleProduct 4), (5, sampleProduct 5)]
    productId := 6 }

def sampleSetting : Settings :=
  { id := 1, key := "k", value := some "v", category := "general"
    description := none, createdAt := some 1, updatedAt := some 5 }

/-- A one-product, one-setting database state. -/
def d0 : Database :=
  { products := [sampleProduct 1], articles := [], settings := [sampleSetting] }

/-- An in-memory state holding one setting. -/
def sMem : MemStorage :=
  { MemStorage.init with settings := [(1, sampleSetting)], settingId := 2 }

def pay0 : SettingsPatch := { value := some (some "x") }

/-! ## Claims -/

/-- C1: for every id, `MemStorage.deleteProduct` returns true exactly when a
product with that id existed, a subsequent `getProduct` returns absence,
and it returns false when no product existed; the same holds for
`MemStorage.deleteSetting`; `DatabaseStorage.deleteProduct` and
`DatabaseStorage.deleteSetting` return true unconditionally. -/
theorem C1_delete_result_semantics (s : MemStorage) (d : Database) (i : Nat)
    (hp : (mapKeys s.products).Nodup) (hs : (mapKeys s.settings).Nodup) :
    ((s.deleteProduct i).1 = (s.getProduct i).isSome) ∧
    (MemStorage.getProduct (s.deleteProduct i).2 i = none) ∧
    ((s.deleteSetting i).1 = (mapGet s.settings i).isSome) ∧
    (mapGet (s.deleteSetting i).2.settings i = none) ∧
    ((DatabaseStorage.deleteProduct d i).1 = true) ∧
    ((DatabaseStorage.deleteSetting d i).1 = true) := by
  refine ⟨?_, ?_, ?_, ?_, rfl, rfl⟩
  · rw [MemStorage.getProduct, ← mapHas_eq_isSome]
    by_cases hh : mapHas s.products i <;>
      simp [MemStorage.deleteProduct, hh]
  · by_cases hh : mapHas s.products i
    · simp only [MemStorage.deleteProduct, hh, if_true, MemStorage.getProduct]
      exact mapGet_mapDelete_self _ _ hp
    · simp only [MemStorage.deleteProduct, hh, Bool.false_eq_true, if_false,
        MemStorage.getProduct]
      exact mapGet_eq_none_of_not_mem _ _
        (fun hmem => hh ((mapHas_iff_mem_keys _ _).mpr hmem))
  · rw [← mapHas_eq_isSome]
    by_cases hh : mapHas s.settings i <;>
      simp [MemStorage.deleteSetting, hh]
  · by_cases hh : mapHas s.settings i
    · simp only [MemStorage.deleteSetting, hh, if_true]
      exact mapGet_mapDelete_self _ _ hs
    · simp only [MemStorage.deleteSetting, hh, Bool.false_eq_true, if_false]
      exact mapGet_eq_none_of_not_mem _ _
        (fun hmem => hh ((mapHas_iff_mem_keys _ _).mpr hmem))

theorem C1_delete_result_semantics_witness :
    ((MemStorage.deleteProduct s5 1).1 = (MemStorage.getProduct s5 1).isSome) ∧
    (MemStorage.getProduct (MemStorage.deleteProduct s5 1).2 1 = none) :=
  ⟨(C1_delete_result_semantics s5 d0 1 (by decide) (by decide)).1,
   (C1_delete_result_semantics s5 d0 1 (by decide) (by decide)).2.1⟩

/-- C10: `MemStorage.deleteProduct i` leaves every product with id `j ≠ i`
unchanged and does not touch any other entity kind or any id counter. -/
theorem C10_deleteProduct_frame (s : MemStorage) (i j : Nat) (h : j ≠ i) :
    MemStorage.getProduct (s.deleteProduct i).2 j = s.getProduct j ∧
    (s.deleteProduct i).2.users = s.users ∧
    (s.deleteProduct i).2.categories = s.categories ∧
    (s.deleteProduct i).2.articles = s.articles ∧
    (s.deleteProduct i).2.orders = s.orders ∧
    (s.deleteProduct i).2.orderItems = s.orderItems ∧
    (s.deleteProduct i).2.subscribers = s.subscribers ∧
    (s.deleteProduct i).2.contacts = s.contacts ∧
    (s.deleteProduct i).2.settings = s.settings ∧
    (s.deleteProduct i).2.userId = s.userId ∧
    (s.deleteProduct i).2.productId = s.productId ∧
    (s.deleteProduct i).2.categoryId = s.categoryId ∧
    (s.deleteProduct i).2.articleId = s.articleId ∧
    (s.deleteProduct i).2.orderId = s.orderId ∧
    (s.deleteProduct i).2.orderItemId = s.orderItemId ∧
    (s.deleteProduct i).2.subscriberId = s.subscriberId ∧
    (s.deleteProduct i).2.contactId = s.contactId ∧
    (s.deleteProduct i).2.settingId = s.settingId := by
  by_cases hh : mapHas s.products i <;>
    simp [MemStorage.deleteProduct, hh, MemStorage.getProduct,
      mapGet_mapDelete_ne _ _ _ h]

theorem C10_deleteProduct_frame_witness :
    MemStorage.getProduct (MemStorage.deleteProduct s5 1).2 2 =
      MemStorage.getProduct s5 2 :=
  (C10_deleteProduct_frame s5 1 2 (by decide)).1

/-- C4: on an existing id, `MemStorage.updateProduct` merges the supplied
fields onto the stored product — `{price: 999}` yields the stored product
with only `price` changed — and every field absent from the payload (as
well as `id` and `createdAt`, which the payload cannot carry) is left
untouched; on a non-existent id it returns the absent-indicator. -/
theorem C4_updateProduct_merge (s : MemStorage) (i : Nat)
    (patch : ProductPatch) :
    (∀ p : Product, s.getProduct i = some p →
      ((s.updateProduct i patch).1 = some (MemStorage.mergeProduct p patch)) ∧
      ((s.updateProduct i { price := some 999 }).1 =
        some { p with price := 999 }) ∧
      (patch.name = none → (MemStorage.mergeProduct p patch).name = p.name) ∧
      (patch.description = none →
        (MemStorage.mergeProduct p patch).description = p.description) ∧
      (patch.price = none →
        (MemStorage.mergeProduct p patch).price = p.price) ∧
      (patch.category = none →
        (MemStorage.mergeProduct p patch).category = p.category) ∧
      (patch.discountPrice = none →
        (MemStorage.mergeProduct p patch).discountPrice = p.discountPrice) ∧
      (patch.images = none →
        (MemStorage.mergeProduct p patch).images = p.images) ∧
      (patch.inStock = none →
        (MemStorage.mergeProduct p patch).inStock = p.inStock) ∧
      (patch.isFeatured = none →
        (MemStorage.mergeProduct p patch).isFeatured = p.isFeatured) ∧
      (patch.isLimited = none →
        (MemStorage.mergeProduct p patch).isLimited = p.isLimited) ∧
      (patch.limitedCount = none →
        (MemStorage.mergeProduct p patch).limitedCount = p.limitedCount) ∧
      (patch.sustainableMaterials = none →
        (MemStorage.mergeProduct p patch).sustainableMaterials =
          p.sustainableMaterials) ∧
      (patch.madeIn = none →
        (MemStorage.mergeProduct p patch).madeIn = p.madeIn) ∧
      ((MemStorage.mergeProduct p patch).id = p.id) ∧
      ((MemStorage.mergeProduct p patch).createdAt = p.createdAt)) ∧
    (s.getProduct i = none → (s.updateProduct i patch).1 = none) := by
  constructor
  · intro p hp
    rw [MemStorage.getProduct] at hp
    refine ⟨by simp [MemStorage.updateProduct, hp],
      by simp [MemStorage.updateProduct, hp, MemStorage.mergeProduct],
      ?_, ?_, ?_, ?_, ?_, ?_, ?_, ?_, ?_, ?_, ?_, ?_, rfl, rfl⟩ <;>
      (intro hnone; simp [MemStorage.mergeProduct, hnone])
  · intro hp
    rw [MemStorage.getProduct] at hp
    simp [MemStorage.updateProduct, hp]

theorem C4_updateProduct_merge_witness :
    (MemStorage.updateProduct s5 1 { price := some 999 }).1 =
      some { sampleProduct 1 with price := 999 } :=
  ((C4_updateProduct_merge s5 1 { price := some 999 }).1
    (sampleProduct 1) rfl).2.1

/-- C6: every unique-field lookup of the in-memory backend returns the
head of the insertion-ordered list of matches — the earliest-created
matching entity — and hence the absent-indicator (`none`, the head of the
empty match list) when nothing matches. -/
theorem C6_unique_field_lookups (s : MemStorage) (v : String) :
    s.getUserByEmail v =
      ((mapValues s.users).filter (fun u => u.email == v)).head? ∧
    s.getUserByUsername v =
      ((mapValues s.users).filter (fun u => u.username == v)).head? ∧
    s.getCategoryBySlug v =
      ((mapValues s.categories).filter (fun c => c.slug == v)).head? ∧
    s.getArticleBySlug v =
      ((mapValues s.articles).filter (fun a => a.slug == v)).head? ∧
    s.getSubscriberByEmail v =
      ((mapValues s.subscribers).filter (fun sub => sub.email == v)).head? ∧
    s.getSettingByKey v =
      ((mapValues s.settings).filter (fun st => st.key == v)).head? :=
  ⟨find?_eq_head?_filter _ _, find?_eq_head?_filter _ _,
   find?_eq_head?_filter _ _, find?_eq_head?_filter _ _,
   find?_eq_head?_filter _ _, find?_eq_head?_filter _ _⟩

/-- C7: in every reachable state of the in-memory backend, each per-kind
id counter strictly dominates every id stored in that kind's map (so a
minted id is fresh and an id is never reused, even after deletion), and
every stored entity's `id` field equals its key (an id is never
mutated). -/
theorem C7_counter_dominance (s : MemStorage) (hr : MemStorage.Reachable s) :
    MemStorage.Inv s ∧
    (∀ (ip : InsertProduct) (now : Nat),
      (s.createProduct ip now).1.id ∉ mapKeys s.products) ∧
    (∀ (k : Nat) (p : Product), s.getProduct k = some p → p.id = k) := by
  have hinv := MemStorage.reachable_inv hr
  refine ⟨hinv, ?_, ?_⟩
  · intro ip now
    simpa [MemStorage.createProduct] using hinv.2.1.not_mem
  · intro k p hk
    rw [MemStorage.getProduct] at hk
    exact hinv.2.1.2.2 (k, p) (mem_of_mapGet_eq_some _ _ _ hk)

theorem C7_counter_dominance_witness :
    MemStorage.Inv MemStorage.init :=
  (C7_counter_dominance MemStorage.init MemStorage.Reachable.init).1

/-- C5: for every entity kind and insert payload, in any reachable state,
creating an entity and then fetching it by its new id returns exactly the
created entity (via the interface getter where one exists — users,
products, articles, orders — and via the underlying map for the kinds
whose interface has no by-id getter), the assigned id is fresh (distinct
from every existing id of that kind), and the server-assigned timestamps
are populated. -/
theorem C5_create_then_get (s : MemStorage) (hr : MemStorage.Reachable s)
    (now : Nat) (iu : InsertUser) (ip : InsertProduct) (ic : InsertCategory)
    (ia : InsertArticle) (io : InsertOrder) (ii : InsertOrderItem)
    (isb : InsertSubscriber) (ict : InsertContact) (ist : InsertSettings) :
    (MemStorage.getUser (s.createUser iu now).2 (s.createUser iu now).1.id =
        some (s.createUser iu now).1 ∧
      (s.createUser iu now).1.id ∉ mapKeys s.users ∧
      (s.createUser iu now).1.createdAt = some now) ∧
    (MemStorage.getProduct (s.createProduct ip now).2
        (s.createProduct ip now).1.id = some (s.createProduct ip now).1 ∧
      (s.createProduct ip now).1.id ∉ mapKeys s.products ∧
      (s.createProduct ip now).1.createdAt = some now) ∧
    (mapGet (s.createCategory ic).2.categories (s.createCategory ic).1.id =
        some (s.createCategory ic).1 ∧
      (s.createCategory ic).1.id ∉ mapKeys s.categories) ∧
    (MemStorage.getArticle (s.createArticle ia now).2
        (s.createArticle ia now).1.id = some (s.createArticle ia now).1 ∧
      (s.createArticle ia now).1.id ∉ mapKeys s.articles ∧
      (s.createArticle ia now).1.createdAt = some now) ∧
    (MemStorage.getOrder (s.createOrder io now).2
        (s.createOrder io now).1.id = some (s.createOrder io now).1 ∧
      (s.createOrder io now).1.id ∉ mapKeys s.orders ∧
      (s.createOrder io now).1.createdAt = some now) ∧
    (mapGet (s.createOrderItem ii).2.orderItems
        (s.createOrderItem ii).1.id = some (s.createOrderItem ii).1 ∧
      (s.createOrderItem ii).1.id ∉ mapKeys s.orderItems) ∧
    (mapGet (s.createSubscriber isb now).2.subscribers
        (s.createSubscriber isb now).1.id =
        some (s.createSubscriber isb now).1 ∧
      (s.createSubscriber isb now).1.id ∉ mapKeys s.subscribers ∧
      (s.createSubscriber isb now).1.createdAt = some now) ∧
    (mapGet (s.createContact ict now).2.contacts
        (s.createContact ict now).1.id = some (s.createContact ict now).1 ∧
      (s.createContact ict now).1.id ∉ mapKeys s.contacts ∧
      (s.createContact ict now).1.createdAt = some now) ∧
    (mapGet (s.createSetting ist now).2.settings
        (s.createSetting ist now).1.id = some (s.createSetting ist now).1 ∧
      (s.createSetting ist now).1.id ∉ mapKeys s.settings ∧
      (s.createSetting ist now).1.createdAt = some now ∧
      (s.createSetting ist now).1.updatedAt = some now) := by
  obtain ⟨hU, hP, hC, hA, hO, hOI, hSub, hCt, hSe⟩ :=
    MemStorage.reachable_inv hr
  refine ⟨⟨?_, ?_, rfl⟩, ⟨?_, ?_, rfl⟩, ⟨?_, ?_⟩, ⟨?_, ?_, rfl⟩,
    ⟨?_, ?_, rfl⟩, ⟨?_, ?_⟩, ⟨?_, ?_, rfl⟩, ⟨?_, ?_, rfl⟩,
    ⟨?_, ?_, rfl, rfl⟩⟩
  · exact mapGet_mapSet_self _ _ _
  · simpa [MemStorage.createUser] using hU.not_mem
  · exact mapGet_mapSet_self _ _ _
  · simpa [MemStorage.createProduct] using hP.not_mem
  · exact mapGet_mapSet_self _ _ _
  · simpa [MemStorage.createCategory] using hC.not_mem
  · exact mapGet_mapSet_self _ _ _
  · simpa [MemStorage.createArticle] using hA.not_mem
  · exact mapGet_mapSet_self _ _ _
  · simpa [MemStorage.createOrder] using hO.not_mem
  · exact mapGet_mapSet_self _ _ _
  · simpa [MemStorage.createOrderItem] using hOI.not_mem
  · exact mapGet_mapSet_self _ _ _
  · simpa [MemStorage.createSubscriber] using hSub.not_mem
  · exact mapGet_mapSet_self _ _ _
  · simpa [MemStorage.createContact] using hCt.not_mem
  · exact mapGet_mapSet_self _ _ _
  · simpa [MemStorage.createSetting] using hSe.not_mem

def iu0 : InsertUser := { username := "u", email := "e", password := "pw" }

def ip0 : InsertProduct :=
  { name := "n", description := "d", price := 1, category := "c" }

def ic0 : InsertCategory := { name := "n", slug := "s" }

def ia0 : InsertArticle := { title := "t", slug := "s", content := "c" }

def io0 : InsertOrder := { status := "new", total := 5 }

def ii0 : InsertOrderItem :=
  { orderId := 1, productId := 1, quantity := 1, price := 5 }

def isb0 : InsertSubscriber := { email := "e" }

def ict0 : InsertContact := { name := "n", email := "e", message := "m" }

def ist0 : InsertSettings := { key := "k" }

theorem C5_create_then_get_witness :
    MemStorage.getProduct (MemStorage.createProduct MemStorage.init ip0 3).2
        (MemStorage.createProduct MemStorage.init ip0 3).1.id =
      some (MemStorage.createProduct MemStorage.init ip0 3).1 :=
  ((C5_create_then_get MemStorage.init MemStorage.Reachable.init 3
    iu0 ip0 ic0 ia0 io0 ii0 isb0 ict0 ist0).2.1).1

/-- C8: a supplied `limit` of 0 or `offset` of 0 is falsy under the `||` /
`if (...)` tests, so it is treated exactly like an absent option in both
backends: no slice is applied.  The options records are
`⟨limit, offset, category, featured⟩` for products and
`⟨limit, offset, category⟩` for articles. -/
theorem C8_zero_limit_offset (s : MemStorage) (d : Database)
    (c : Option String) (f : Option Bool) (lim off : Option Nat) :
    s.getProducts ⟨some 0, off, c, f⟩ = s.getProducts ⟨none, off, c, f⟩ ∧
    s.getProducts ⟨lim, some 0, c, f⟩ = s.getProducts ⟨lim, none, c, f⟩ ∧
    s.getArticles ⟨some 0, off, c⟩ = s.getArticles ⟨none, off, c⟩ ∧
    s.getArticles ⟨lim, some 0, c⟩ = s.getArticles ⟨lim, none, c⟩ ∧
    DatabaseStorage.getProducts d ⟨some 0, off, c, f⟩ =
      DatabaseStorage.getProducts d ⟨none, off, c, f⟩ ∧
    DatabaseStorage.getProducts d ⟨lim, some 0, c, f⟩ =
      DatabaseStorage.getProducts d ⟨lim, none, c, f⟩ ∧
    DatabaseStorage.getArticles d ⟨some 0, off, c⟩ =
      DatabaseStorage.getArticles d ⟨none, off, c⟩ ∧
    DatabaseStorage.getArticles d ⟨lim, some 0, c⟩ =
      DatabaseStorage.getArticles d ⟨lim, none, c⟩ :=
  ⟨rfl, rfl, rfl, rfl, rfl, rfl, rfl, rfl⟩

/-- C9: the empty string is falsy under `if (category)`, so an empty
category option imposes no filter: the result equals the unfiltered call
in both backends, for products, articles and settings. -/
theorem C9_empty_category_no_filter (s : MemStorage) (d : Database)
    (lim off : Option Nat) (f : Option Bool) :
    s.getProducts ⟨lim, off, some "", f⟩ =
      s.getProducts ⟨lim, off, none, f⟩ ∧
    s.getArticles ⟨lim, off, some ""⟩ = s.getArticles ⟨lim, off, none⟩ ∧
    s.getSettings (some "") = s.getSettings none ∧
    DatabaseStorage.getProducts d ⟨lim, off, some "", f⟩ =
      DatabaseStorage.getProducts d ⟨lim, off, none, f⟩ ∧
    DatabaseStorage.getArticles d ⟨lim, off, some ""⟩ =
      DatabaseStorage.getArticles d ⟨lim, off, none⟩ ∧
    DatabaseStorage.getSettings d (some "") =
      DatabaseStorage.getSettings d none := by
  refine ⟨?_, ?_, ?_, ?_, ?_, ?_⟩ <;>
    simp [MemStorage.getProducts, MemStorage.filteredProducts,
      MemStorage.getArticles, MemStorage.filteredArticles,
      MemStorage.getSettings, DatabaseStorage.getProducts,
      DatabaseStorage.getArticles, DatabaseStorage.getSettings]

/-- C3 counterexample: the claim's "keeps at most limit elements" fails
for a supplied limit of 0 — `options?.limit || products.length` treats 0
as falsy — so `getProducts {limit: 0}` on the five-product state returns
all five products instead of at most zero. -/
theorem C3_zero_limit_counterexample :
    MemStorage.getProducts s5 ⟨some 0, none, none, none⟩ =
      mapValues s5.products ∧
    (MemStorage.getProducts s5 ⟨some 0, none, none, none⟩).length = 5 ∧
    ¬ ((MemStorage.getProducts s5 ⟨some 0, none, none, none⟩).length ≤ 0) :=
  ⟨rfl, rfl, by decide⟩

/-- C3 (amended): `getProducts` first applies the category and featured
filters, then drops the first `offset` elements, then — when the supplied
limit is nonzero — keeps at most `limit` elements; an absent offset drops
nothing, and an absent (or zero, see the counterexample) limit keeps all
remaining elements.  On the five-product state with no filters,
`getProducts {limit: 2, offset: 1}` returns exactly the elements at
zero-indexed positions 1 and 2. -/
theorem C3_pagination_order :
    (∀ (s : MemStorage) (c : Option String) (f : Option Bool)
        (off lim : Nat), lim ≠ 0 →
        s.getProducts ⟨some lim, some off, c, f⟩ =
          ((s.filteredProducts c f).drop off).take lim) ∧
    (∀ (s : MemStorage) (c : Option String) (f : Option Bool),
        s.getProducts ⟨none, none, c, f⟩ = s.filteredProducts c f) ∧
    (∀ (s : MemStorage) (c : Option String) (f : Option Bool) (lim : Nat),
        lim ≠ 0 →
        s.getProducts ⟨some lim, none, c, f⟩ =
          (s.filteredProducts c f).take lim) ∧
    (∀ (s : MemStorage) (c : Option String) (f : Option Bool) (off : Nat),
        s.getProducts ⟨none, some off, c, f⟩ =
          (s.filteredProducts c f).drop off) ∧
    MemStorage.getProducts s5 ⟨some 2, some 1, none, none⟩ =
      [sampleProduct 2, sampleProduct 3] := by
  refine ⟨?_, ?_, ?_, ?_, rfl⟩
  · intro s c f off lim hlim
    by_cases hoff : off = 0 <;>
      simp [MemStorage.getProducts, jsOrNat, hlim, hoff]
  · intro s c f
    simp only [MemStorage.getProducts, jsOrNat, List.drop_zero]
    exact List.take_length _
  · intro s c f lim hlim
    simp [MemStorage.getProducts, jsOrNat, hlim]
  · intro s c f off
    by_cases hoff : off = 0 <;>
      · simp only [MemStorage.getProducts, jsOrNat, hoff, List.drop_zero]
        exact List.take_of_length_le (by simp)

theorem C3_pagination_order_witness :
    MemStorage.getProducts s5 ⟨some 2, some 1, none, none⟩ =
      ((MemStorage.filteredProducts s5 none none).drop 1).take 2 :=
  C3_pagination_order.1 s5 none none 1 2 (by decide)

theorem map_updatedAt_dbUpdateSetting (l : List Settings)
    (patch : SettingsPatch) (i : Nat) :
    (l.map (fun r =>
        if r.id == i then DatabaseStorage.setSettingColumns patch r else r)).map
        Settings.updatedAt =
      l.map Settings.updatedAt := by
  induction l with
  | nil => rfl
  | cons a t ih =>
      simp only [List.map_cons, ih, List.cons.injEq, and_true]
      cases h : a.id == i <;> simp [h, DatabaseStorage.setSettingColumns]

theorem dbUpdateSetting_result_updatedAt (d : Database) (i : Nat)
    (patch : SettingsPatch) :
    (DatabaseStorage.updateSetting d i patch).1.map Settings.updatedAt =
      (d.settings.find? (fun r => r.id == i)).map Settings.updatedAt := by
  simp only [DatabaseStorage.updateSetting]
  rw [find?_eq_head?_filter]
  generalize d.settings.filter (fun r => r.id == i) = l
  cases l with
  | nil => rfl
  | cons a t => rfl

/-- C2 counterexample: `DatabaseStorage.updateSetting` does not refresh
`updatedAt`.  On a database holding one setting whose stored `updatedAt`
is 5, updating with a value-only payload returns the row with only
`value` changed: `updatedAt` is still the stored 5, not the time of the
update. -/
theorem C2_updatedAt_counterexample :
    (DatabaseStorage.updateSetting d0 1 pay0).1 =
      some { sampleSetting with value := some "x" } ∧
    (DatabaseStorage.updateSetting d0 1 pay0).1.map Settings.updatedAt =
      some (some 5) ∧
    sampleSetting.updatedAt = some 5 :=
  ⟨rfl, rfl, rfl⟩

/-- C2 (amended): `MemStorage.updateSetting` refreshes `updatedAt` to the
time of the update on every mutation of an existing setting;
`DatabaseStorage.updateSetting` does not — the `updatedAt` column of every
row, including the returned one, keeps its stored value (the schema's
`defaultNow()` applies only at insert and the update writes only the
payload columns). -/
theorem C2_updatedAt_refresh (s : MemStorage) (i now : Nat)
    (patch : SettingsPatch) (st : Settings)
    (h : mapGet s.settings i = some st) :
    ((s.updateSetting i patch now).1 =
      some { MemStorage.mergeSettings st patch with updatedAt := some now }) ∧
    ((s.updateSetting i patch now).1.map Settings.updatedAt =
      some (some now)) ∧
    (∀ d : Database,
      (DatabaseStorage.updateSetting d i patch).2.settings.map
          Settings.updatedAt = d.settings.map Settings.updatedAt) ∧
    (∀ d : Database,
      (DatabaseStorage.updateSetting d i patch).1.map Settings.updatedAt =
        (d.settings.find? (fun r => r.id == i)).map Settings.updatedAt) := by
  refine ⟨?_, ?_, fun d => map_updatedAt_dbUpdateSetting d.settings patch i,
    fun d => dbUpdateSetting_result_updatedAt d i patch⟩
  · simp [MemStorage.updateSetting, h]
  · simp [MemStorage.updateSetting, h]

theorem C2_updatedAt_refresh_witness :
    (MemStorage.updateSetting sMem 1 pay0 9).1.map Settings.updatedAt =
      some (some 9) :=
  (C2_updatedAt_refresh sMem 1 9 pay0 sampleSetting rfl).2.1
